import Mathlib

/-!
Verification of the server-side QUIC handshake orchestration layer
(`quic/server/handshake/ServerHandshake.cpp`).

The state of a `ServerHandshake` instance is embedded as an explicit record
(`ServerHandshake.St`); each member function of the source becomes a pure
state-passing function. The external TLS engine (the fizz state machine,
record layers, and the `FizzServerHandshake` subclass, none of which are part
of this translation unit) is abstracted as a record of pure functions
(`Engine`) over an opaque engine state; the engine's outputs are modelled by
a closed action type (`CryptoAction`) matching the action taxonomy of the
design. Asynchronous (future-based) completion is modelled by storing the
deferred batch in the state (`pendingFuture_`) to be completed by a separate
top-level step. `LOG(FATAL)` / `CHECK` failures (defensive termination) are
modelled by returning `none`; a thrown `QuicTransportException` is modelled
by returning the `(message, code)` pair alongside the post-call state.

Ghost instrumentation (fields that have no C++ counterpart, used only to
state theorems): `initialConsumed_`/`handshakeConsumed_`/`appDataConsumed_`
record the bytes the engine has consumed from each read buffer,
`callbackInvocations_` counts firings of the application callback, and
`loopIters_` counts iterations of the pending-event drain loop.
-/

namespace QuicServerHandshake

/-- A handshake byte (the payload content is opaque to this layer). -/
abbrev Byte := Nat

/-- Transport error codes surfaced by this layer; the source uses
`TransportErrorCode::INTERNAL_ERROR` for internal-misuse errors, and engine
errors carry whichever code the engine reports. -/
inductive TransportErrorCode where
  | NO_ERROR
  | INTERNAL_ERROR
  | PROTOCOL_VIOLATION
  | CRYPTO_ERROR
  deriving DecidableEq, Repr

/-- A `(message, transport error code)` pair, as carried by `error_` and by
`QuicTransportException`. -/
abbrev QuicErr := String × TransportErrorCode

/-- The four recognized encryption levels. -/
inductive EncryptionLevel where
  | Initial
  | Handshake
  | EarlyData
  | AppData
  deriving DecidableEq, Repr

/-- Decoding of a raw (integer) encryption-level value, as a C++ `switch`
over the enum sees it: values outside the four recognized ones fall to the
`default:` arm. -/
def EncryptionLevel.decode : Nat → Option EncryptionLevel
  | 0 => some .Initial
  | 1 => some .Handshake
  | 2 => some .EarlyData
  | 3 => some .AppData
  | _ => none

/-- The five cipher kinds of `ServerHandshake::CipherKind`. -/
inductive CipherKind where
  | HandshakeRead
  | HandshakeWrite
  | OneRttRead
  | OneRttWrite
  | ZeroRttRead
  deriving DecidableEq, Repr

/-- An installed AEAD or header-protection cipher is opaque to this layer;
only identity matters, so a cipher is a tag. -/
abbrev Cipher := Nat

/-- The closed action type of the engine's outputs, applied by the action
dispatcher. `deriveKey` leads to `computeCiphers`; `writeCryptoData` leads to
`writeDataToStream`; `reportError` / `reportHandshakeDone` / `waitForData`
set the corresponding flags. -/
inductive CryptoAction where
  | deriveKey (kind : CipherKind) (secret : Nat)
  | writeCryptoData (level : EncryptionLevel) (bytes : List Byte)
  | reportError (msg : String) (code : TransportErrorCode)
  | reportHandshakeDone
  | waitForData
  deriving DecidableEq, Repr

/-- `fizz::server::AsyncActions`: either an immediately available batch of
actions, or a future whose batch completes later. -/
inductive AsyncActions where
  | immediate (acts : List CryptoAction)
  | deferred (acts : List CryptoAction)
  deriving DecidableEq, Repr

/-- The slice of the owning connection object this layer touches: the
connection-owned HandshakeWrite cipher slot pair and the per-level crypto
streams (`writeDataToQuicStream` appends). EarlyData has no server crypto
stream: `writeDataToStream` CHECK-fails on it before any stream lookup. -/
structure Conn where
  handshakeWriteCipher : Option Cipher := none
  handshakeWriteHeaderCipher : Option Cipher := none
  initialStream : List Byte := []
  handshakeStream : List Byte := []
  oneRttStream : List Byte := []
  deriving DecidableEq, Repr

/-- The abstract TLS engine (fizz machine + record layers + the
`FizzServerHandshake` subclass glue), as a record of pure functions over an
opaque engine state `Nat`.

Modelled from the spec: the engine is an external collaborator whose
processing entry point "accepts buffered bytes for the currently-expected
level and yields either an immediate or deferred batch of actions", an entry
point "reporting the currently-expected read level", and an entry point "to
resume a previously-deferred crypto event". `processData` returns the new
engine state, the number of bytes consumed from the front of the buffer
("the engine decides how much, if any, it can process — leftover bytes
remain buffered"), and the produced batch. -/
structure Engine where
  readLevel : Nat → EncryptionLevel
  processData : Nat → List Byte → Nat × Nat × AsyncActions
  pendingEvent : Nat → Option (Nat × AsyncActions)
  writeTicket : Nat → Nat → Nat × AsyncActions
  acceptStep : Nat → Nat × AsyncActions
  buildCipherPair : Nat → Cipher × Cipher

/-- The state of one `ServerHandshake` instance. Fields whose names end in
`_` mirror the C++ data members; `actionGuard_` models whether the
`DestructorGuard` currently guards the connection (`true`) or is the null
guard (`false`); `pendingFuture_` holds the batch of a deferred
`AsyncActions` whose future has not yet completed; `est` is the opaque
engine state. The remaining fields are ghost instrumentation. -/
structure St where
  error_ : Option QuicErr := none
  actionGuard_ : Bool := false
  inHandshakeStack_ : Bool := false
  inProcessPendingEvents_ : Bool := false
  waitForData_ : Bool := false
  handshakeEventAvailable_ : Bool := false
  handshakeDone_ : Bool := false
  callback_ : Bool := false
  transportParams_ : Option Nat := none
  phase_ : Nat := 0
  initialReadBuf_ : List Byte := []
  handshakeReadBuf_ : List Byte := []
  appDataReadBuf_ : List Byte := []
  handshakeReadCipher_ : Option Cipher := none
  oneRttWriteCipher_ : Option Cipher := none
  oneRttReadCipher_ : Option Cipher := none
  zeroRttReadCipher_ : Option Cipher := none
  oneRttReadHeaderCipher_ : Option Cipher := none
  oneRttWriteHeaderCipher_ : Option Cipher := none
  handshakeReadHeaderCipher_ : Option Cipher := none
  zeroRttReadHeaderCipher_ : Option Cipher := none
  pendingFuture_ : Option (List CryptoAction) := none
  conn : Conn := {}
  est : Nat := 0
  initialConsumed_ : List Byte := []
  handshakeConsumed_ : List Byte := []
  appDataConsumed_ : List Byte := []
  callbackInvocations_ : Nat := 0
  loopIters_ : Nat := 0
  deriving DecidableEq, Repr

attribute [ext] St

/-- The freshly constructed handshake (`ServerHandshake::ServerHandshake`):
the guard starts as the null guard, everything else empty/false. -/
def mkServerHandshake : St := {}

/-- `ServerHandshake::onError`: records the terminal error and flags an
application-notifiable event. -/
def onError (s : St) (e : QuicErr) : St :=
  { s with error_ := some e, handshakeEventAvailable_ := true }

/-- `ServerHandshake::onHandshakeDone`: flags an application-notifiable
event (and nothing else — in particular it does not touch
`handshakeDone_`). -/
def onHandshakeDone (s : St) : St :=
  { s with handshakeEventAvailable_ := true }

/-- `ServerHandshake::cancel`: detaches the application callback. -/
def cancel (s : St) : St :=
  { s with callback_ := false }

/-- `ServerHandshake::isCancelled`: whether the callback is detached. -/
def isCancelled (s : St) : Bool :=
  s.callback_ == false

/-- `ServerHandshake::isHandshakeDone`. -/
def isHandshakeDone (s : St) : Bool :=
  s.handshakeDone_

/-- `ServerHandshake::getPhase`. -/
def getPhase (s : St) : Nat :=
  s.phase_

/-- Modelled from the spec: transport-parameter extension
encoding/decoding is out of scope; the holder's
`getClientTransportParams()` simply yields the parameters it stores. -/
def extGetClientTransportParams (tp : Nat) : Option Nat :=
  some tp

/-- `ServerHandshake::getClientTransportParams`: dereferences
`transportParams_` unconditionally; the null-pointer dereference before any
`accept` is modelled by the outer `none`. -/
def getClientTransportParams (s : St) : Option (Option Nat) :=
  match s.transportParams_ with
  | none => none
  | some tp => some (extGetClientTransportParams tp)

/-- `ServerHandshake::getHandshakeReadCipher`: throws the terminal error if
set, otherwise moves the slot's contents out. -/
def getHandshakeReadCipher (s : St) : St × Except QuicErr (Option Cipher) :=
  match s.error_ with
  | some e => (s, .error e)
  | none => ({ s with handshakeReadCipher_ := none }, .ok s.handshakeReadCipher_)

/-- `ServerHandshake::getOneRttWriteCipher`. -/
def getOneRttWriteCipher (s : St) : St × Except QuicErr (Option Cipher) :=
  match s.error_ with
  | some e => (s, .error e)
  | none => ({ s with oneRttWriteCipher_ := none }, .ok s.oneRttWriteCipher_)

/-- `ServerHandshake::getOneRttReadCipher`. -/
def getOneRttReadCipher (s : St) : St × Except QuicErr (Option Cipher) :=
  match s.error_ with
  | some e => (s, .error e)
  | none => ({ s with oneRttReadCipher_ := none }, .ok s.oneRttReadCipher_)

/-- `ServerHandshake::getZeroRttReadCipher`. -/
def getZeroRttReadCipher (s : St) : St × Except QuicErr (Option Cipher) :=
  match s.error_ with
  | some e => (s, .error e)
  | none => ({ s with zeroRttReadCipher_ := none }, .ok s.zeroRttReadCipher_)

/-- `ServerHandshake::getOneRttReadHeaderCipher`. -/
def getOneRttReadHeaderCipher (s : St) : St × Except QuicErr (Option Cipher) :=
  match s.error_ with
  | some e => (s, .error e)
  | none => ({ s with oneRttReadHeaderCipher_ := none }, .ok s.oneRttReadHeaderCipher_)

/-- `ServerHandshake::getOneRttWriteHeaderCipher`. -/
def getOneRttWriteHeaderCipher (s : St) : St × Except QuicErr (Option Cipher) :=
  match s.error_ with
  | some e => (s, .error e)
  | none => ({ s with oneRttWriteHeaderCipher_ := none }, .ok s.oneRttWriteHeaderCipher_)

/-- `ServerHandshake::getHandshakeReadHeaderCipher`. -/
def getHandshakeReadHeaderCipher (s : St) : St × Except QuicErr (Option Cipher) :=
  match s.error_ with
  | some e => (s, .error e)
  | none => ({ s with handshakeReadHeaderCipher_ := none }, .ok s.handshakeReadHeaderCipher_)

/-- `ServerHandshake::getZeroRttReadHeaderCipher`. -/
def getZeroRttReadHeaderCipher (s : St) : St × Except QuicErr (Option Cipher) :=
  match s.error_ with
  | some e => (s, .error e)
  | none => ({ s with zeroRttReadHeaderCipher_ := none }, .ok s.zeroRttReadHeaderCipher_)

/-- `ServerHandshake::computeCiphers`: derive the cipher pair from the
secret and store it into the slot selected by `kind` (`HandshakeWrite` goes
into the connection-owned slot); every installation flags an
application-notifiable event. -/
def computeCiphers (E : Engine) (s : St) (kind : CipherKind) (secret : Nat) : St :=
  let p := E.buildCipherPair secret
  let s' :=
    match kind with
    | .HandshakeRead =>
        { s with handshakeReadCipher_ := some p.1, handshakeReadHeaderCipher_ := some p.2 }
    | .HandshakeWrite =>
        { s with conn :=
            { s.conn with handshakeWriteCipher := some p.1,
                          handshakeWriteHeaderCipher := some p.2 } }
    | .OneRttRead =>
        { s with oneRttReadCipher_ := some p.1, oneRttReadHeaderCipher_ := some p.2 }
    | .OneRttWrite =>
        { s with oneRttWriteCipher_ := some p.1, oneRttWriteHeaderCipher_ := some p.2 }
    | .ZeroRttRead =>
        { s with zeroRttReadCipher_ := some p.1, zeroRttReadHeaderCipher_ := some p.2 }
  { s' with handshakeEventAvailable_ := true }

/-- `ServerHandshake::writeDataToStream`: `CHECK`-fails (fatally) when the
level is EarlyData, otherwise appends the bytes to the connection's crypto
stream for that level (`getCryptoStream` + `writeDataToQuicStream`). -/
def writeDataToStream (s : St) (encryptionLevel : EncryptionLevel) (data : List Byte) :
    Option St :=
  match encryptionLevel with
  | .EarlyData => none
  | .Initial => some { s with conn := { s.conn with initialStream := s.conn.initialStream ++ data } }
  | .Handshake =>
      some { s with conn := { s.conn with handshakeStream := s.conn.handshakeStream ++ data } }
  | .AppData => some { s with conn := { s.conn with oneRttStream := s.conn.oneRttStream ++ data } }

/-- Application of one engine action by the action dispatcher.
Modelled from the spec: `processCryptoActions` lives in the
`FizzServerHandshake` subclass (not part of this translation unit); per the
design it is "a fixed dispatch over the action's variant — every action kind
the engine can produce must have a handler" — key derivation goes through
`computeCiphers`, response bytes through `writeDataToStream`, engine errors
through `onError`, handshake completion sets the sticky completion flag and
calls `onHandshakeDone`, and a need-more-data signal sets `waitForData_`. -/
def applyAction (E : Engine) (s : St) : CryptoAction → Option St
  | .deriveKey kind secret => some (computeCiphers E s kind secret)
  | .writeCryptoData level bytes => writeDataToStream s level bytes
  | .reportError msg code => some (onError s (msg, code))
  | .reportHandshakeDone => some (onHandshakeDone { s with handshakeDone_ := true })
  | .waitForData => some { s with waitForData_ := true }

/-- Modelled from the spec: the dispatcher applies "every action in the
batch … in the order produced". -/
def processCryptoActions (E : Engine) (s : St) : List CryptoAction → Option St
  | [] => some s
  | a :: rest => (applyAction E s a).bind fun s' => processCryptoActions E s' rest

/-- The body of `ServerHandshake::processActions` up to (but not including)
its final re-invocation of `processPendingEvents`: apply the batch, release
the in-flight guard, fire the application callback when one is registered,
the call is not inside a top-level handshake-stack invocation, and an event
is available, then clear the event-available flag regardless. -/
def processActionsCore (E : Engine) (s : St) (acts : List CryptoAction) : Option St :=
  (processCryptoActions E s acts).map fun s1 =>
    let s2 := { s1 with actionGuard_ := false }
    let s3 :=
      if s2.callback_ && !s2.inHandshakeStack_ && s2.handshakeEventAvailable_ then
        { s2 with callbackInvocations_ := s2.callbackInvocations_ + 1 }
      else s2
    { s3 with handshakeEventAvailable_ := false }

/-- The per-iteration engine-feeding step of the drain loop: select the
buffer matching the engine's currently expected read level, hand it to the
engine (`processSocketData`, which consumes a front segment of the buffer
and yields a batch), and dispatch the batch through `startActions`.
The engine's consumption of a front segment of the buffer is modelled from
the spec ("the engine decides how much, if any, it can process — leftover
bytes remain buffered"); `processSocketData` itself is subclass code not in
this translation unit. -/
def feedEngineStep (E : Engine) (s : St) : St × AsyncActions :=
  match E.readLevel s.est with
  | .Initial =>
      let r := E.processData s.est s.initialReadBuf_
      ({ s with est := r.1,
                initialConsumed_ := s.initialConsumed_ ++ s.initialReadBuf_.take r.2.1,
                initialReadBuf_ := s.initialReadBuf_.drop r.2.1 }, r.2.2)
  | .Handshake =>
      let r := E.processData s.est s.handshakeReadBuf_
      ({ s with est := r.1,
                handshakeConsumed_ := s.handshakeConsumed_ ++ s.handshakeReadBuf_.take r.2.1,
                handshakeReadBuf_ := s.handshakeReadBuf_.drop r.2.1 }, r.2.2)
  | .EarlyData =>
      let r := E.processData s.est s.appDataReadBuf_
      ({ s with est := r.1,
                appDataConsumed_ := s.appDataConsumed_ ++ s.appDataReadBuf_.take r.2.1,
                appDataReadBuf_ := s.appDataReadBuf_.drop r.2.1 }, r.2.2)
  | .AppData =>
      let r := E.processData s.est s.appDataReadBuf_
      ({ s with est := r.1,
                appDataConsumed_ := s.appDataConsumed_ ++ s.appDataReadBuf_.take r.2.1,
                appDataReadBuf_ := s.appDataReadBuf_.drop r.2.1 }, r.2.2)

/-- One loop iteration's entry bookkeeping: acquire the in-flight guard
(`actionGuard_ = DestructorGuard(conn_)`); the iteration counter is ghost
instrumentation. -/
def acquireGuard (s : St) : St :=
  { s with actionGuard_ := true, loopIters_ := s.loopIters_ + 1 }

mutual

/-- `ServerHandshake::startActions`: an immediate batch is processed inline;
a future registers `processActions` as its continuation (modelled by parking
the batch in `pendingFuture_` until `completeFuture` runs). -/
def startActions (E : Engine) : Nat → St → AsyncActions → Option St
  | fuel, s, .immediate acts => processActions E fuel s acts
  | _, s, .deferred acts => some { s with pendingFuture_ := some acts }
termination_by fuel _ _ => (fuel, 3)

/-- `ServerHandshake::processActions`: apply the completed batch
(`processActionsCore`), then re-invoke the drain loop. -/
def processActions (E : Engine) : Nat → St → List CryptoAction → Option St
  | fuel, s, acts =>
    match processActionsCore E s acts with
    | none => none
    | some s' => processPendingEvents E fuel s'
termination_by fuel _ _ => (fuel, 2)

/-- `ServerHandshake::processPendingEvents`: returns immediately when
reentered; otherwise marks the loop as running, runs the drain loop, and
clears the mark on every exit path (`SCOPE_EXIT`). -/
def processPendingEvents (E : Engine) : Nat → St → Option St
  | fuel, s =>
    if s.inProcessPendingEvents_ then some s
    else
      match ppeLoop E fuel { s with inProcessPendingEvents_ := true } with
      | none => none
      | some s' => some { s' with inProcessPendingEvents_ := false }
termination_by fuel _ => (fuel, 1)

/-- The `while (!actionGuard_ && !error_)` drain loop of
`ServerHandshake::processPendingEvents`. Each iteration acquires the guard;
if not blocked on more data it feeds the engine's expected-level buffer
(`feedEngineStep` + `startActions`); otherwise it tries to resume a
previously deferred crypto event (`processPendingCryptoEvent`, modelled by
`Engine.pendingEvent` — subclass/spec territory: "attempt to resume any
previously deferred crypto event; if none can be resumed, release the held
lifetime guard and exit the loop without error"). `fuel` bounds the number
of iterations; exhaustion yields `none`. -/
def ppeLoop (E : Engine) : Nat → St → Option St
  | fuel, s =>
    if s.actionGuard_ || s.error_.isSome then some s
    else
      match fuel with
      | 0 => none
      | fuel' + 1 =>
        if !s.waitForData_ then
          match startActions E fuel' (feedEngineStep E (acquireGuard s)).1
              (feedEngineStep E (acquireGuard s)).2 with
          | none => none
          | some s2 => ppeLoop E fuel' s2
        else
          match E.pendingEvent s.est with
          | none => some { acquireGuard s with actionGuard_ := false }
          | some pe =>
            match startActions E fuel' { acquireGuard s with est := pe.1 } pe.2 with
            | none => none
            | some s2 => ppeLoop E fuel' s2
termination_by fuel _ => (fuel, 0)

end

/-- `ServerHandshake::addProcessingActions`: if an action is already in
flight, record the internal-misuse terminal error and do not start the new
batch; otherwise acquire the guard and start it. -/
def addProcessingActions (E : Engine) (fuel : Nat) (s : St) (actions : AsyncActions) :
    Option St :=
  if s.actionGuard_ then
    some (onError s ("Processing action while pending", TransportErrorCode.INTERNAL_ERROR))
  else
    startActions E fuel { s with actionGuard_ := true } actions

/-- Completion of a previously deferred batch (the future's `then`-attached
continuation firing): runs `processActions` on the parked batch. -/
def completeFuture (E : Engine) (fuel : Nat) (s : St) : Option St :=
  match s.pendingFuture_ with
  | none => some s
  | some acts => processActions E fuel { s with pendingFuture_ := none } acts

/-- A sequence of engine action-batch completions. -/
def completeBatches (E : Engine) (fuel : Nat) (s : St) : List (List CryptoAction) → Option St
  | [] => some s
  | b :: rest => (processActions E fuel s b).bind fun s' => completeBatches E fuel s' rest

/-- The buffer-selecting `switch` of `ServerHandshake::doHandshake`:
Initial and Handshake each append to their own read buffer, EarlyData and
AppData append to the shared buffer. -/
def appendReadBuf (s : St) (encryptionLevel : EncryptionLevel) (data : List Byte) : St :=
  match encryptionLevel with
  | .Initial => { s with initialReadBuf_ := s.initialReadBuf_ ++ data }
  | .Handshake => { s with handshakeReadBuf_ := s.handshakeReadBuf_ ++ data }
  | .EarlyData => { s with appDataReadBuf_ := s.appDataReadBuf_ ++ data }
  | .AppData => { s with appDataReadBuf_ := s.appDataReadBuf_ ++ data }

/-- `ServerHandshake::doHandshake` with the encryption level already
decoded: mark in-stack, clear the blocked-on-data indicator, append the
bytes to the buffer for the level (EarlyData and AppData share one buffer),
drain, then surface the terminal error, if any, to the caller; the in-stack
flag reverts on every exit path (`SCOPE_EXIT`). The returned pair is the
post-call state and the thrown `(message, code)`, if any. -/
def doHandshake (E : Engine) (fuel : Nat) (s : St) (data : List Byte)
    (encryptionLevel : EncryptionLevel) : Option (St × Option QuicErr) :=
  let s2 := appendReadBuf { s with inHandshakeStack_ := true, waitForData_ := false }
    encryptionLevel data
  match processPendingEvents E fuel s2 with
  | none => none
  | some s3 => some ({ s3 with inHandshakeStack_ := false }, s3.error_)

/-- `ServerHandshake::doHandshake` as called with a raw encryption-level
value: a value outside the four recognized ones hits the `default:` arm of
the `switch`, `LOG(FATAL)` — defensive termination. -/
def doHandshakeRaw (E : Engine) (fuel : Nat) (s : St) (data : List Byte) (rawLevel : Nat) :
    Option (St × Option QuicErr) :=
  match EncryptionLevel.decode rawLevel with
  | none => none
  | some lvl => doHandshake E fuel s data lvl

/-- Modelled from the spec: `writeNewSessionTicketToCrypto` (subclass code,
not in this translation unit) hands the token to the engine and dispatches
the resulting batch through `addProcessingActions`; per the error-handling
design, once a terminal error is recorded "every subsequent fallible public
call re-surfaces the same error rather than attempting further progress",
so with the terminal error already set the step makes no progress. -/
def writeNewSessionTicketToCrypto (E : Engine) (fuel : Nat) (s : St) (token : Nat) :
    Option St :=
  if s.error_.isSome then some s
  else
    let r := E.writeTicket s.est token
    addProcessingActions E fuel { s with est := r.1 } r.2

/-- `ServerHandshake::writeNewSessionTicket`: mark in-stack, hand the token
to the engine, drain, surface the terminal error, if any; the in-stack flag
reverts on every exit path. -/
def writeNewSessionTicket (E : Engine) (fuel : Nat) (s : St) (token : Nat) :
    Option (St × Option QuicErr) :=
  let s1 := { s with inHandshakeStack_ := true }
  match writeNewSessionTicketToCrypto E fuel s1 token with
  | none => none
  | some s2 =>
    match processPendingEvents E fuel s2 with
    | none => none
    | some s3 => some ({ s3 with inHandshakeStack_ := false }, s3.error_)

/-- Modelled from the spec: `processAccept` (subclass code, not in this
translation unit) triggers "the engine's first processing step (server-side
handshake start)" and dispatches its batch through `addProcessingActions`. -/
def processAccept (E : Engine) (fuel : Nat) (s : St) : Option St :=
  let r := E.acceptStep s.est
  addProcessingActions E fuel { s with est := r.1 } r.2

/-- `ServerHandshake::accept`: store the transport-parameters holder, mark
in-stack, trigger the engine's first processing step; the in-stack flag
reverts on every exit path. -/
def accept (E : Engine) (fuel : Nat) (s : St) (transportParams : Nat) : Option St :=
  let s1 := { s with transportParams_ := some transportParams, inHandshakeStack_ := true }
  match processAccept E fuel s1 with
  | none => none
  | some s2 => some { s2 with inHandshakeStack_ := false }

/-- A concrete engine used to instantiate the theorems on closed runs: it
always expects Initial-level data, consumes its whole buffer, and then
signals that it needs more data. -/
def sampleEngine : Engine where
  readLevel := fun _ => .Initial
  processData := fun est buf => (est + 1, buf.length, .immediate [.waitForData])
  pendingEvent := fun _ => none
  writeTicket := fun est _ => (est + 1, .immediate [])
  acceptStep := fun est => (est + 1, .immediate [.deriveKey .HandshakeRead 5])
  buildCipherPair := fun secret => (secret, secret + 1)

/-- The frame facts preserved by every run of the drain-loop machinery:
the callback registration, the transport-parameters holder, and the
in-stack flag are untouched; the callback never fires while detached; the
handshake-done flag is sticky; and for each encryption level the
engine-consumed bytes followed by the still-buffered bytes are exactly the
bytes that were there before (FIFO, no duplication, no loss). -/
def Pres (s s' : St) : Prop :=
  s'.callback_ = s.callback_ ∧
  s'.transportParams_ = s.transportParams_ ∧
  s'.inHandshakeStack_ = s.inHandshakeStack_ ∧
  (s.callback_ = false → s'.callbackInvocations_ = s.callbackInvocations_) ∧
  (s.handshakeDone_ = true → s'.handshakeDone_ = true) ∧
  s'.initialConsumed_ ++ s'.initialReadBuf_ = s.initialConsumed_ ++ s.initialReadBuf_ ∧
  s'.handshakeConsumed_ ++ s'.handshakeReadBuf_ = s.handshakeConsumed_ ++ s.handshakeReadBuf_ ∧
  s'.appDataConsumed_ ++ s'.appDataReadBuf_ = s.appDataConsumed_ ++ s.appDataReadBuf_

theorem pres_refl (s : St) : Pres s s :=
  ⟨rfl, rfl, rfl, fun _ => rfl, fun h => h, rfl, rfl, rfl⟩

theorem pres_trans {s1 s2 s3 : St} (h12 : Pres s1 s2) (h23 : Pres s2 s3) : Pres s1 s3 := by
  obtain ⟨a12, b12, c12, d12, e12, f12, g12, i12⟩ := h12
  obtain ⟨a23, b23, c23, d23, e23, f23, g23, i23⟩ := h23
  refine ⟨a23.trans a12, b23.trans b12, c23.trans c12, ?_, ?_, f23.trans f12,
    g23.trans g12, i23.trans i12⟩
  · intro h
    exact (d23 (a12.trans h)).trans (d12 h)
  · intro h
    exact e23 (e12 h)

/-- The stronger frame satisfied by the action-application layer
(`applyAction` / `processCryptoActions`): actions touch only the cipher
slots, the connection slice, the error / event / done / wait flags. -/
def ActFrame (s s' : St) : Prop :=
  s'.callback_ = s.callback_ ∧
  s'.transportParams_ = s.transportParams_ ∧
  s'.inHandshakeStack_ = s.inHandshakeStack_ ∧
  s'.callbackInvocations_ = s.callbackInvocations_ ∧
  s'.actionGuard_ = s.actionGuard_ ∧
  s'.inProcessPendingEvents_ = s.inProcessPendingEvents_ ∧
  s'.pendingFuture_ = s.pendingFuture_ ∧
  s'.est = s.est ∧
  s'.loopIters_ = s.loopIters_ ∧
  s'.initialReadBuf_ = s.initialReadBuf_ ∧
  s'.handshakeReadBuf_ = s.handshakeReadBuf_ ∧
  s'.appDataReadBuf_ = s.appDataReadBuf_ ∧
  s'.initialConsumed_ = s.initialConsumed_ ∧
  s'.handshakeConsumed_ = s.handshakeConsumed_ ∧
  s'.appDataConsumed_ = s.appDataConsumed_ ∧
  (s.handshakeDone_ = true → s'.handshakeDone_ = true)

theorem actFrame_refl (s : St) : ActFrame s s :=
  ⟨rfl, rfl, rfl, rfl, rfl, rfl, rfl, rfl, rfl, rfl, rfl, rfl, rfl, rfl, rfl, fun h => h⟩

theorem actFrame_trans {s1 s2 s3 : St} (h12 : ActFrame s1 s2) (h23 : ActFrame s2 s3) :
    ActFrame s1 s3 := by
  obtain ⟨a1, a2, a3, a4, a5, a6, a7, a8, a9, a10, a11, a12, a13, a14, a15, a16⟩ := h12
  obtain ⟨b1, b2, b3, b4, b5, b6, b7, b8, b9, b10, b11, b12, b13, b14, b15, b16⟩ := h23
  exact ⟨b1.trans a1, b2.trans a2, b3.trans a3, b4.trans a4, b5.trans a5, b6.trans a6,
    b7.trans a7, b8.trans a8, b9.trans a9, b10.trans a10, b11.trans a11, b12.trans a12,
    b13.trans a13, b14.trans a14, b15.trans a15, fun h => b16 (a16 h)⟩

theorem actFrame_toPres {s s' : St} (h : ActFrame s s') : Pres s s' := by
  obtain ⟨a1, a2, a3, a4, _, _, _, _, _, a10, a11, a12, a13, a14, a15, a16⟩ := h
  exact ⟨a1, a2, a3, fun _ => a4, a16, by rw [a10, a13], by rw [a11, a14], by rw [a12, a15]⟩

theorem applyAction_frame (E : Engine) (s : St) (a : CryptoAction) (s' : St)
    (h : applyAction E s a = some s') : ActFrame s s' := by
  cases a with
  | deriveKey kind secret =>
    simp only [applyAction, Option.some.injEq] at h
    subst h
    cases kind <;>
      exact ⟨rfl, rfl, rfl, rfl, rfl, rfl, rfl, rfl, rfl, rfl, rfl, rfl, rfl, rfl, rfl,
        fun h => h⟩
  | writeCryptoData level bytes =>
    cases level with
    | EarlyData => exact absurd h (by simp [applyAction, writeDataToStream])
    | Initial =>
      simp only [applyAction, writeDataToStream, Option.some.injEq] at h
      subst h
      exact ⟨rfl, rfl, rfl, rfl, rfl, rfl, rfl, rfl, rfl, rfl, rfl, rfl, rfl, rfl, rfl,
        fun h => h⟩
    | Handshake =>
      simp only [applyAction, writeDataToStream, Option.some.injEq] at h
      subst h
      exact ⟨rfl, rfl, rfl, rfl, rfl, rfl, rfl, rfl, rfl, rfl, rfl, rfl, rfl, rfl, rfl,
        fun h => h⟩
    | AppData =>
      simp only [applyAction, writeDataToStream, Option.some.injEq] at h
      subst h
      exact ⟨rfl, rfl, rfl, rfl, rfl, rfl, rfl, rfl, rfl, rfl, rfl, rfl, rfl, rfl, rfl,
        fun h => h⟩
  | reportError msg code =>
    simp only [applyAction, onError, Option.some.injEq] at h
    subst h
    exact ⟨rfl, rfl, rfl, rfl, rfl, rfl, rfl, rfl, rfl, rfl, rfl, rfl, rfl, rfl, rfl,
      fun h => h⟩
  | reportHandshakeDone =>
    simp only [applyAction, onHandshakeDone, Option.some.injEq] at h
    subst h
    exact ⟨rfl, rfl, rfl, rfl, rfl, rfl, rfl, rfl, rfl, rfl, rfl, rfl, rfl, rfl, rfl,
      fun _ => rfl⟩
  | waitForData =>
    simp only [applyAction, Option.some.injEq] at h
    subst h
    exact ⟨rfl, rfl, rfl, rfl, rfl, rfl, rfl, rfl, rfl, rfl, rfl, rfl, rfl, rfl, rfl,
      fun h => h⟩

theorem processCryptoActions_frame (E : Engine) :
    ∀ (acts : List CryptoAction) (s s' : St),
      processCryptoActions E s acts = some s' → ActFrame s s' := by
  intro acts
  induction acts with
  | nil =>
    intro s s' h
    simp only [processCryptoActions, Option.some.injEq] at h
    subst h
    exact actFrame_refl s
  | cons a rest ih =>
    intro s s' h
    simp only [processCryptoActions, Option.bind_eq_some] at h
    obtain ⟨sm, hm, hrest⟩ := h
    exact actFrame_trans (applyAction_frame E s a sm hm) (ih sm s' hrest)

/-- Explicit form of one completion step: apply the batch, release the
guard, bump the callback counter exactly when the three-way gate (callback
present, not in-stack, event available) holds, clear the event flag. -/
theorem processActionsCore_eq (E : Engine) (s : St) (acts : List CryptoAction) (s1 : St)
    (h : processCryptoActions E s acts = some s1) :
    processActionsCore E s acts = some
      (if s1.callback_ && !s1.inHandshakeStack_ && s1.handshakeEventAvailable_ then
        { s1 with actionGuard_ := false, handshakeEventAvailable_ := false,
                  callbackInvocations_ := s1.callbackInvocations_ + 1 }
      else { s1 with actionGuard_ := false, handshakeEventAvailable_ := false }) := by
  simp only [processActionsCore, h, Option.map_some']
  by_cases hc : (s1.callback_ && !s1.inHandshakeStack_ && s1.handshakeEventAvailable_) = true
  · simp [hc]
  · simp [hc]

theorem processActionsCore_pres (E : Engine) (s : St) (acts : List CryptoAction) (s' : St)
    (h : processActionsCore E s acts = some s') : Pres s s' := by
  rcases hh : processCryptoActions E s acts with _ | s1
  · rw [processActionsCore, hh] at h
    simp at h
  · rw [processActionsCore_eq E s acts s1 hh] at h
    injection h with h
    subst h
    obtain ⟨a1, a2, a3, a4, _, _, _, _, _, a10, a11, a12, a13, a14, a15, a16⟩ :=
      processCryptoActions_frame E acts s s1 hh
    split
    next hc =>
      have hcb : s1.callback_ = true := by
        simp only [Bool.and_eq_true] at hc
        exact hc.1.1
      refine ⟨a1, a2, a3, ?_, a16, ?_, ?_, ?_⟩
      · intro hf
        rw [a1, hf] at hcb
        exact Bool.noConfusion hcb
      · show s1.initialConsumed_ ++ s1.initialReadBuf_ = _
        rw [a13, a10]
      · show s1.handshakeConsumed_ ++ s1.handshakeReadBuf_ = _
        rw [a14, a11]
      · show s1.appDataConsumed_ ++ s1.appDataReadBuf_ = _
        rw [a15, a12]
    next hc =>
      refine ⟨a1, a2, a3, fun _ => a4, a16, ?_, ?_, ?_⟩
      · show s1.initialConsumed_ ++ s1.initialReadBuf_ = _
        rw [a13, a10]
      · show s1.handshakeConsumed_ ++ s1.handshakeReadBuf_ = _
        rw [a14, a11]
      · show s1.appDataConsumed_ ++ s1.appDataReadBuf_ = _
        rw [a15, a12]

theorem feedEngineStep_pres (E : Engine) (s : St) : Pres s (feedEngineStep E s).1 := by
  unfold feedEngineStep
  cases E.readLevel s.est <;>
    refine ⟨rfl, rfl, rfl, fun _ => rfl, fun h => h, ?_, ?_, ?_⟩ <;>
    simp [List.append_assoc, List.take_append_drop]

/-- All four entry points of the drain-loop machinery satisfy the frame
`Pres`, at every fuel. -/
theorem machinery_pres (E : Engine) : ∀ fuel : Nat,
    (∀ s s', ppeLoop E fuel s = some s' → Pres s s') ∧
    (∀ s s', processPendingEvents E fuel s = some s' → Pres s s') ∧
    (∀ s acts s', processActions E fuel s acts = some s' → Pres s s') ∧
    (∀ s aa s', startActions E fuel s aa = some s' → Pres s s') := by
  intro fuel
  induction fuel with
  | zero =>
    have hLoop : ∀ s s', ppeLoop E 0 s = some s' → Pres s s' := by
      intro s s' h
      rw [ppeLoop] at h
      split at h
      · injection h with h
        subst h
        exact pres_refl _
      · exact Option.noConfusion h
    have hPpe : ∀ s s', processPendingEvents E 0 s = some s' → Pres s s' := by
      intro s s' h
      rw [processPendingEvents] at h
      split at h
      · injection h with h
        subst h
        exact pres_refl _
      · rcases hl : ppeLoop E 0 { s with inProcessPendingEvents_ := true } with _ | sm
        · rw [hl] at h
          exact Option.noConfusion h
        · rw [hl] at h
          injection h with h
          subst h
          have h1 : Pres s { s with inProcessPendingEvents_ := true } :=
            ⟨rfl, rfl, rfl, fun _ => rfl, fun h => h, rfl, rfl, rfl⟩
          have h2 : Pres sm { sm with inProcessPendingEvents_ := false } :=
            ⟨rfl, rfl, rfl, fun _ => rfl, fun h => h, rfl, rfl, rfl⟩
          exact pres_trans h1 (pres_trans (hLoop _ _ hl) h2)
    have hPa : ∀ s acts s', processActions E 0 s acts = some s' → Pres s s' := by
      intro s acts s' h
      rw [processActions] at h
      rcases hc : processActionsCore E s acts with _ | sm
      · rw [hc] at h
        exact Option.noConfusion h
      · rw [hc] at h
        exact pres_trans (processActionsCore_pres E s acts sm hc) (hPpe sm s' h)
    have hSa : ∀ s aa s', startActions E 0 s aa = some s' → Pres s s' := by
      intro s aa s' h
      cases aa with
      | immediate acts =>
        rw [startActions] at h
        exact hPa s acts s' h
      | deferred acts =>
        rw [startActions] at h
        injection h with h
        subst h
        exact ⟨rfl, rfl, rfl, fun _ => rfl, fun h => h, rfl, rfl, rfl⟩
    exact ⟨hLoop, hPpe, hPa, hSa⟩
  | succ n IHn =>
    obtain ⟨ihLoop, ihPpe, ihPa, ihSa⟩ := IHn
    have hLoop : ∀ s s', ppeLoop E (n + 1) s = some s' → Pres s s' := by
      intro s s' h
      rw [ppeLoop] at h
      split at h
      · injection h with h
        subst h
        exact pres_refl _
      · have hps1 : Pres s (acquireGuard s) :=
          ⟨rfl, rfl, rfl, fun _ => rfl, fun h => h, rfl, rfl, rfl⟩
        split at h
        · split at h
          · exact Option.noConfusion h
          · next s2 hsa =>
            exact pres_trans hps1 (pres_trans (feedEngineStep_pres E (acquireGuard s))
              (pres_trans (ihSa _ _ _ hsa) (ihLoop _ _ h)))
        · split at h
          · injection h with h
            subst h
            exact ⟨rfl, rfl, rfl, fun _ => rfl, fun h => h, rfl, rfl, rfl⟩
          · next pe hpe =>
            split at h
            · exact Option.noConfusion h
            · next s2 hsa =>
              have hps1e : Pres s { acquireGuard s with est := pe.1 } :=
                ⟨rfl, rfl, rfl, fun _ => rfl, fun h => h, rfl, rfl, rfl⟩
              exact pres_trans hps1e (pres_trans (ihSa _ _ _ hsa) (ihLoop _ _ h))
    have hPpe : ∀ s s', processPendingEvents E (n + 1) s = some s' → Pres s s' := by
      intro s s' h
      rw [processPendingEvents] at h
      split at h
      · injection h with h
        subst h
        exact pres_refl _
      · rcases hl : ppeLoop E (n + 1) { s with inProcessPendingEvents_ := true } with _ | sm
        · rw [hl] at h
          exact Option.noConfusion h
        · rw [hl] at h
          injection h with h
          subst h
          have h1 : Pres s { s with inProcessPendingEvents_ := true } :=
            ⟨rfl, rfl, rfl, fun _ => rfl, fun h => h, rfl, rfl, rfl⟩
          have h2 : Pres sm { sm with inProcessPendingEvents_ := false } :=
            ⟨rfl, rfl, rfl, fun _ => rfl, fun h => h, rfl, rfl, rfl⟩
          exact pres_trans h1 (pres_trans (hLoop _ _ hl) h2)
    have hPa : ∀ s acts s', processActions E (n + 1) s acts = some s' → Pres s s' := by
      intro s acts s' h
      rw [processActions] at h
      rcases hc : processActionsCore E s acts with _ | sm
      · rw [hc] at h
        exact Option.noConfusion h
      · rw [hc] at h
        exact pres_trans (processActionsCore_pres E s acts sm hc) (hPpe sm s' h)
    have hSa : ∀ s aa s', startActions E (n + 1) s aa = some s' → Pres s s' := by
      intro s aa s' h
      cases aa with
      | immediate acts =>
        rw [startActions] at h
        exact hPa s acts s' h
      | deferred acts =>
        rw [startActions] at h
        injection h with h
        subst h
        exact ⟨rfl, rfl, rfl, fun _ => rfl, fun h => h, rfl, rfl, rfl⟩
    exact ⟨hLoop, hPpe, hPa, hSa⟩

theorem ppeLoop_of_error (E : Engine) (fuel : Nat) (s : St) (h : s.error_.isSome = true) :
    ppeLoop E fuel s = some s := by
  cases fuel <;> (rw [ppeLoop]; simp [h])

theorem processPendingEvents_of_error (E : Engine) (fuel : Nat) (s : St)
    (h : s.error_.isSome = true) : processPendingEvents E fuel s = some s := by
  rw [processPendingEvents]
  split
  · rfl
  · next hip =>
    rw [ppeLoop_of_error E fuel { s with inProcessPendingEvents_ := true }
      (show ({ s with inProcessPendingEvents_ := true } : St).error_.isSome = true from h)]
    have hs : ({ s with inProcessPendingEvents_ := false } : St) = s := by
      simp only [Bool.not_eq_true] at hip
      ext <;> simp [hip]
    exact congrArg some hs

/-- A state with a recorded terminal error and an installed 1-RTT write
cipher, used to instantiate the error-path theorems on closed inputs. -/
def sErrSt : St :=
  { mkServerHandshake with
    error_ := some ("boom", TransportErrorCode.PROTOCOL_VIOLATION),
    oneRttWriteCipher_ := some 7 }

/-- C1: a call to `addProcessingActions` made while the action guard is
already held records the terminal error ("Processing action while pending",
INTERNAL_ERROR) and returns without starting the new actions: everything
else in the state — in particular the guard and any parked deferred batch of
the original in-flight action — is untouched. -/
theorem addProcessingActions_while_pending (E : Engine) (fuel : Nat) (s : St)
    (actions : AsyncActions) (h : s.actionGuard_ = true) :
    addProcessingActions E fuel s actions =
      some { s with
        error_ := some ("Processing action while pending", TransportErrorCode.INTERNAL_ERROR),
        handshakeEventAvailable_ := true } := by
  simp [addProcessingActions, h, onError]

theorem addProcessingActions_while_pending_witness :
    addProcessingActions sampleEngine 3
      { mkServerHandshake with
        actionGuard_ := true
        pendingFuture_ := some [CryptoAction.reportHandshakeDone] }
      (AsyncActions.immediate [CryptoAction.waitForData]) =
      some { mkServerHandshake with
             actionGuard_ := true
             pendingFuture_ := some [CryptoAction.reportHandshakeDone]
             error_ := some ("Processing action while pending",
               TransportErrorCode.INTERNAL_ERROR)
             handshakeEventAvailable_ := true } :=
  addProcessingActions_while_pending sampleEngine 3 _ _ rfl

/-- C2: once the terminal error is set it is sticky: `doHandshake` appends
the newly fed bytes to the buffer of the given level but consumes nothing
(the drain loop enters no iteration: the ghost consumed lists, the iteration
counter, the engine state and everything else are unchanged) and throws the
same `(message, code)` pair; `writeNewSessionTicket` changes nothing and
throws that same pair; all eight cipher/header-cipher getters throw that
same pair and leave the state untouched. -/
theorem terminal_error_sticky (E : Engine) (fuel : Nat) (s : St) (e : QuicErr)
    (h : s.error_ = some e) :
    (∀ data lvl, doHandshake E fuel s data lvl =
      some ({ (appendReadBuf s lvl data) with
                inHandshakeStack_ := false, waitForData_ := false }, some e)) ∧
    (∀ token, writeNewSessionTicket E fuel s token =
      some ({ s with inHandshakeStack_ := false }, some e)) ∧
    getHandshakeReadCipher s = (s, .error e) ∧
    getOneRttWriteCipher s = (s, .error e) ∧
    getOneRttReadCipher s = (s, .error e) ∧
    getZeroRttReadCipher s = (s, .error e) ∧
    getOneRttReadHeaderCipher s = (s, .error e) ∧
    getOneRttWriteHeaderCipher s = (s, .error e) ∧
    getHandshakeReadHeaderCipher s = (s, .error e) ∧
    getZeroRttReadHeaderCipher s = (s, .error e) := by
  refine ⟨?_, ?_, ?_, ?_, ?_, ?_, ?_, ?_, ?_, ?_⟩
  · intro data lvl
    cases lvl <;>
      simp [doHandshake, appendReadBuf, processPendingEvents_of_error, h]
  · intro token
    simp [writeNewSessionTicket, writeNewSessionTicketToCrypto,
      processPendingEvents_of_error, h]
  · simp [getHandshakeReadCipher, h]
  · simp [getOneRttWriteCipher, h]
  · simp [getOneRttReadCipher, h]
  · simp [getZeroRttReadCipher, h]
  · simp [getOneRttReadHeaderCipher, h]
  · simp [getOneRttWriteHeaderCipher, h]
  · simp [getHandshakeReadHeaderCipher, h]
  · simp [getZeroRttReadHeaderCipher, h]

theorem terminal_error_sticky_witness :
    doHandshake sampleEngine 5 sErrSt [1, 2] EncryptionLevel.Initial =
      some ({ (appendReadBuf sErrSt EncryptionLevel.Initial [1, 2]) with
                inHandshakeStack_ := false, waitForData_ := false },
            some ("boom", TransportErrorCode.PROTOCOL_VIOLATION)) ∧
    getOneRttWriteCipher sErrSt =
      (sErrSt, .error ("boom", TransportErrorCode.PROTOCOL_VIOLATION)) := by
  have hst := terminal_error_sticky sampleEngine 5 sErrSt
    ("boom", TransportErrorCode.PROTOCOL_VIOLATION) rfl
  exact ⟨hst.1 [1, 2] EncryptionLevel.Initial, hst.2.2.2.1⟩

/-- C4: every cipher/header-cipher getter has single-retrieval (move-out)
semantics when no terminal error is set: it returns the slot's current
contents and leaves the slot empty, so a second call to the same getter
returns empty; in particular a getter called before the cipher was ever
installed (slot empty) returns empty without error. -/
theorem cipher_getters_single_retrieval (s : St) (h : s.error_ = none) :
    (getHandshakeReadCipher s =
        ({ s with handshakeReadCipher_ := none }, .ok s.handshakeReadCipher_) ∧
      (getHandshakeReadCipher (getHandshakeReadCipher s).1).2 = .ok none) ∧
    (getOneRttWriteCipher s =
        ({ s with oneRttWriteCipher_ := none }, .ok s.oneRttWriteCipher_) ∧
      (getOneRttWriteCipher (getOneRttWriteCipher s).1).2 = .ok none) ∧
    (getOneRttReadCipher s =
        ({ s with oneRttReadCipher_ := none }, .ok s.oneRttReadCipher_) ∧
      (getOneRttReadCipher (getOneRttReadCipher s).1).2 = .ok none) ∧
    (getZeroRttReadCipher s =
        ({ s with zeroRttReadCipher_ := none }, .ok s.zeroRttReadCipher_) ∧
      (getZeroRttReadCipher (getZeroRttReadCipher s).1).2 = .ok none) ∧
    (getOneRttReadHeaderCipher s =
        ({ s with oneRttReadHeaderCipher_ := none }, .ok s.oneRttReadHeaderCipher_) ∧
      (getOneRttReadHeaderCipher (getOneRttReadHeaderCipher s).1).2 = .ok none) ∧
    (getOneRttWriteHeaderCipher s =
        ({ s with oneRttWriteHeaderCipher_ := none }, .ok s.oneRttWriteHeaderCipher_) ∧
      (getOneRttWriteHeaderCipher (getOneRttWriteHeaderCipher s).1).2 = .ok none) ∧
    (getHandshakeReadHeaderCipher s =
        ({ s with handshakeReadHeaderCipher_ := none }, .ok s.handshakeReadHeaderCipher_) ∧
      (getHandshakeReadHeaderCipher (getHandshakeReadHeaderCipher s).1).2 = .ok none) ∧
    (getZeroRttReadHeaderCipher s =
        ({ s with zeroRttReadHeaderCipher_ := none }, .ok s.zeroRttReadHeaderCipher_) ∧
      (getZeroRttReadHeaderCipher (getZeroRttReadHeaderCipher s).1).2 = .ok none) := by
  refine ⟨⟨?_, ?_⟩, ⟨?_, ?_⟩, ⟨?_, ?_⟩, ⟨?_, ?_⟩, ⟨?_, ?_⟩, ⟨?_, ?_⟩, ⟨?_, ?_⟩, ⟨?_, ?_⟩⟩ <;>
    simp [getHandshakeReadCipher, getOneRttWriteCipher, getOneRttReadCipher,
      getZeroRttReadCipher, getOneRttReadHeaderCipher, getOneRttWriteHeaderCipher,
      getHandshakeReadHeaderCipher, getZeroRttReadHeaderCipher, h]

theorem cipher_getters_single_retrieval_witness :
    getOneRttWriteCipher { mkServerHandshake with oneRttWriteCipher_ := some 7 } =
      ({ mkServerHandshake with oneRttWriteCipher_ := none }, .ok (some 7)) ∧
    (getOneRttWriteCipher
      (getOneRttWriteCipher { mkServerHandshake with oneRttWriteCipher_ := some 7 }).1).2 =
      .ok none ∧
    (getOneRttWriteCipher mkServerHandshake).2 = .ok none := by
  have h1 := cipher_getters_single_retrieval
    { mkServerHandshake with oneRttWriteCipher_ := some 7 } rfl
  have h2 := cipher_getters_single_retrieval mkServerHandshake rfl
  refine ⟨h1.2.1.1, h1.2.1.2, ?_⟩
  rw [h2.2.1.1]
  simp [mkServerHandshake]

/-- C9: `writeDataToStream` fails fatally (CHECK, defensive termination)
when the level is EarlyData, and for every other level appends the bytes to
the connection's crypto stream for that level. -/
theorem writeDataToStream_spec (s : St) (data : List Byte) :
    writeDataToStream s .EarlyData data = none ∧
    writeDataToStream s .Initial data =
      some { s with conn := { s.conn with initialStream := s.conn.initialStream ++ data } } ∧
    writeDataToStream s .Handshake data =
      some { s with conn := { s.conn with handshakeStream := s.conn.handshakeStream ++ data } } ∧
    writeDataToStream s .AppData data =
      some { s with conn := { s.conn with oneRttStream := s.conn.oneRttStream ++ data } } :=
  ⟨rfl, rfl, rfl, rfl⟩

/-- C6 as written is false at a concrete input: running the engine's
`onHandshakeDone` callback on a fresh handshake leaves `isHandshakeDone()`
returning `false` — the callback does not set the handshake-complete
signal (it only flags an application-notifiable event). -/
theorem onHandshakeDone_counterexample :
    isHandshakeDone (onHandshakeDone mkServerHandshake) = false ∧
    (onHandshakeDone mkServerHandshake).handshakeEventAvailable_ = true :=
  ⟨rfl, rfl⟩

/-- C6 (amended): `onHandshakeDone` only marks an application-notifiable
event as available and changes nothing else — in particular it does not set
the handshake-complete flag; that flag is set by the action-processing layer
when it handles the engine's handshake-done report, `isHandshakeDone()`
reads it directly, and it is sticky: once true, it is never cleared by any
run of the drain-loop machinery. -/
theorem onHandshakeDone_spec (E : Engine) (s : St) :
    onHandshakeDone s = { s with handshakeEventAvailable_ := true } ∧
    isHandshakeDone s = s.handshakeDone_ ∧
    isHandshakeDone (onHandshakeDone s) = isHandshakeDone s ∧
    applyAction E s .reportHandshakeDone =
      some { s with handshakeDone_ := true, handshakeEventAvailable_ := true } ∧
    (∀ fuel s', s.handshakeDone_ = true → processPendingEvents E fuel s = some s' →
      isHandshakeDone s' = true) := by
  refine ⟨rfl, rfl, rfl, rfl, ?_⟩
  intro fuel s' hd hp
  exact ((machinery_pres E fuel).2.1 s s' hp).2.2.2.2.1 hd

theorem onHandshakeDone_spec_witness :
    isHandshakeDone ((processPendingEvents sampleEngine 2
      { mkServerHandshake with handshakeDone_ := true }).getD mkServerHandshake) = true := by
  have h := onHandshakeDone_spec sampleEngine { mkServerHandshake with handshakeDone_ := true }
  refine h.2.2.2.2 2 _ rfl ?_
  simp [processPendingEvents, ppeLoop, startActions, processActions, processActionsCore,
    processCryptoActions, applyAction, feedEngineStep, acquireGuard, sampleEngine,
    mkServerHandshake]

/-- C8 as written is false at a concrete input: with a terminal error
recorded and a 1-RTT write cipher installed in its slot, the getter does not
return the installed cipher — it fails with the recorded error. -/
theorem drain_after_error_counterexample :
    sErrSt.oneRttWriteCipher_ = some 7 ∧
    (getOneRttWriteCipher sErrSt).2 =
      .error ("boom", TransportErrorCode.PROTOCOL_VIOLATION) :=
  ⟨rfl, rfl⟩

/-- C8 (amended): after a terminal error has been recorded, no further
handshake progress occurs (the drain loop is a no-op), but the cipher
getters do not let the application drain already-produced keys: they fail
with the recorded error and leave the installed ciphers in their slots;
draining already-produced keys through the getters succeeds exactly while no
terminal error is set (e.g. after handshake completion). -/
theorem keys_drain_only_without_error (s : St) :
    (∀ e, s.error_ = some e →
      (∀ E fuel, processPendingEvents E fuel s = some s) ∧
      getHandshakeReadCipher s = (s, .error e) ∧
      getOneRttWriteCipher s = (s, .error e)) ∧
    (s.error_ = none →
      (getHandshakeReadCipher s).2 = .ok s.handshakeReadCipher_ ∧
      (getOneRttWriteCipher s).2 = .ok s.oneRttWriteCipher_ ∧
      (getOneRttReadCipher s).2 = .ok s.oneRttReadCipher_ ∧
      (getZeroRttReadCipher s).2 = .ok s.zeroRttReadCipher_ ∧
      (getOneRttReadHeaderCipher s).2 = .ok s.oneRttReadHeaderCipher_ ∧
      (getOneRttWriteHeaderCipher s).2 = .ok s.oneRttWriteHeaderCipher_ ∧
      (getHandshakeReadHeaderCipher s).2 = .ok s.handshakeReadHeaderCipher_ ∧
      (getZeroRttReadHeaderCipher s).2 = .ok s.zeroRttReadHeaderCipher_) := by
  constructor
  · intro e he
    refine ⟨fun E fuel => processPendingEvents_of_error E fuel s (by simp [he]), ?_, ?_⟩
    · simp [getHandshakeReadCipher, he]
    · simp [getOneRttWriteCipher, he]
  · intro he
    refine ⟨?_, ?_, ?_, ?_, ?_, ?_, ?_, ?_⟩ <;>
      simp [getHandshakeReadCipher, getOneRttWriteCipher, getOneRttReadCipher,
        getZeroRttReadCipher, getOneRttReadHeaderCipher, getOneRttWriteHeaderCipher,
        getHandshakeReadHeaderCipher, getZeroRttReadHeaderCipher, he]

theorem keys_drain_only_without_error_witness :
    getOneRttWriteCipher sErrSt =
      (sErrSt, .error ("boom", TransportErrorCode.PROTOCOL_VIOLATION)) ∧
    (getOneRttWriteCipher { mkServerHandshake with oneRttWriteCipher_ := some 7 }).2 =
      .ok (some 7) := by
  have h1 := (keys_drain_only_without_error sErrSt).1
    ("boom", TransportErrorCode.PROTOCOL_VIOLATION) rfl
  have h2 := (keys_drain_only_without_error
    { mkServerHandshake with oneRttWriteCipher_ := some 7 }).2 rfl
  exact ⟨h1.2.2, h2.2.1⟩

theorem completeBatches_pres (E : Engine) (fuel : Nat) :
    ∀ (batches : List (List CryptoAction)) (s s' : St),
      completeBatches E fuel s batches = some s' → Pres s s' := by
  intro batches
  induction batches with
  | nil =>
    intro s s' h
    simp only [completeBatches, Option.some.injEq] at h
    subst h
    exact pres_refl _
  | cons b rest ih =>
    intro s s' h
    simp only [completeBatches, Option.bind_eq_some] at h
    obtain ⟨sm, h1, h2⟩ := h
    exact pres_trans ((machinery_pres E fuel).2.2.1 _ _ _ h1) (ih _ _ h2)

theorem addProcessingActions_pres (E : Engine) (fuel : Nat) (s : St) (aa : AsyncActions)
    (s' : St) (h : addProcessingActions E fuel s aa = some s') : Pres s s' := by
  rw [addProcessingActions] at h
  split at h
  · injection h with h
    subst h
    exact ⟨rfl, rfl, rfl, fun _ => rfl, fun h => h, rfl, rfl, rfl⟩
  · exact pres_trans
      (show Pres s { s with actionGuard_ := true } from
        ⟨rfl, rfl, rfl, fun _ => rfl, fun h => h, rfl, rfl, rfl⟩)
      ((machinery_pres E fuel).2.2.2 _ _ _ h)

theorem decode_none_of_unrecognized (n : Nat) (h : 3 < n) : EncryptionLevel.decode n = none := by
  obtain ⟨k, rfl⟩ : ∃ k, n = k + 4 := ⟨n - 4, by omega⟩
  rfl

/-- C3: on completion of an action batch in `processActions`, after the
batch has been applied and the in-flight guard released, the application
callback is invoked if and only if a callback is registered, the
in-handshake-stack flag is false, and the event-available flag is set; it is
invoked at most once per completion (the invocation counter grows by at most
one), never while a top-level call is still on the stack, and the
event-available flag is cleared afterwards whether or not it fired. -/
theorem processActions_callback_gate (E : Engine) (s : St) (acts : List CryptoAction)
    (s1 : St) (h : processCryptoActions E s acts = some s1) :
    ∃ s2, processActionsCore E s acts = some s2 ∧
      s2.handshakeEventAvailable_ = false ∧
      s2.actionGuard_ = false ∧
      s2.callbackInvocations_ = s.callbackInvocations_ +
        (if s.callback_ && !s.inHandshakeStack_ && s1.handshakeEventAvailable_ then 1 else 0) ∧
      (s.inHandshakeStack_ = true → s2.callbackInvocations_ = s.callbackInvocations_) := by
  obtain ⟨a1, a2, a3, a4, _, _, _, _, _, _, _, _, _, _, _, _⟩ :=
    processCryptoActions_frame E acts s s1 h
  refine ⟨_, processActionsCore_eq E s acts s1 h, ?_, ?_, ?_, ?_⟩
  · split <;> rfl
  · split <;> rfl
  · rw [a1, a3]
    split
    next hc => simp [hc, a4]
    next hc => simp [hc, a4]
  · intro hst
    rw [a1, a3, hst]
    simp [a4]

theorem processActions_callback_gate_witness :
    ∃ s2, processActionsCore sampleEngine
        { mkServerHandshake with callback_ := true, actionGuard_ := true }
        [CryptoAction.reportHandshakeDone] = some s2 ∧
      s2.handshakeEventAvailable_ = false ∧
      s2.actionGuard_ = false ∧
      s2.callbackInvocations_ = 1 := by
  obtain ⟨s2, h1, h2, h3, h4, _⟩ := processActions_callback_gate sampleEngine
    { mkServerHandshake with callback_ := true, actionGuard_ := true }
    [CryptoAction.reportHandshakeDone] _ rfl
  refine ⟨s2, h1, h2, h3, ?_⟩
  simpa [processCryptoActions, applyAction, onHandshakeDone, mkServerHandshake] using h4

/-- C5: bytes supplied via `doHandshake` are appended to exactly one
per-level read buffer (Initial and Handshake each their own; EarlyData and
AppData a single shared buffer); a raw level outside the four recognized
values is a fatal defensive termination; and the engine consumes buffered
bytes in exact FIFO append order with no duplication or loss: per level, the
consumed-so-far bytes followed by the still-buffered bytes are invariant
under any drain, and each feed extends that sequence by exactly the fed
bytes, even across multiple feeds before any drain succeeds. -/
theorem fifo_level_buffering (E : Engine) (fuel : Nat) (s : St) (data : List Byte) :
    ((appendReadBuf s .Initial data).initialReadBuf_ = s.initialReadBuf_ ++ data ∧
     (appendReadBuf s .Initial data).handshakeReadBuf_ = s.handshakeReadBuf_ ∧
     (appendReadBuf s .Initial data).appDataReadBuf_ = s.appDataReadBuf_ ∧
     (appendReadBuf s .Handshake data).handshakeReadBuf_ = s.handshakeReadBuf_ ++ data ∧
     (appendReadBuf s .Handshake data).initialReadBuf_ = s.initialReadBuf_ ∧
     (appendReadBuf s .Handshake data).appDataReadBuf_ = s.appDataReadBuf_ ∧
     (appendReadBuf s .EarlyData data).appDataReadBuf_ = s.appDataReadBuf_ ++ data ∧
     (appendReadBuf s .EarlyData data).initialReadBuf_ = s.initialReadBuf_ ∧
     (appendReadBuf s .EarlyData data).handshakeReadBuf_ = s.handshakeReadBuf_ ∧
     (appendReadBuf s .AppData data).appDataReadBuf_ = s.appDataReadBuf_ ++ data ∧
     (appendReadBuf s .AppData data).initialReadBuf_ = s.initialReadBuf_ ∧
     (appendReadBuf s .AppData data).handshakeReadBuf_ = s.handshakeReadBuf_) ∧
    (∀ rawLevel, 3 < rawLevel → doHandshakeRaw E fuel s data rawLevel = none) ∧
    (∀ s', processPendingEvents E fuel s = some s' →
      s'.initialConsumed_ ++ s'.initialReadBuf_ = s.initialConsumed_ ++ s.initialReadBuf_ ∧
      s'.handshakeConsumed_ ++ s'.handshakeReadBuf_ =
        s.handshakeConsumed_ ++ s.handshakeReadBuf_ ∧
      s'.appDataConsumed_ ++ s'.appDataReadBuf_ = s.appDataConsumed_ ++ s.appDataReadBuf_) ∧
    (∀ lvl s' thrown, doHandshake E fuel s data lvl = some (s', thrown) →
      s'.initialConsumed_ ++ s'.initialReadBuf_ =
        s.initialConsumed_ ++ (appendReadBuf s lvl data).initialReadBuf_ ∧
      s'.handshakeConsumed_ ++ s'.handshakeReadBuf_ =
        s.handshakeConsumed_ ++ (appendReadBuf s lvl data).handshakeReadBuf_ ∧
      s'.appDataConsumed_ ++ s'.appDataReadBuf_ =
        s.appDataConsumed_ ++ (appendReadBuf s lvl data).appDataReadBuf_) := by
  refine ⟨?_, ?_, ?_, ?_⟩
  · exact ⟨rfl, rfl, rfl, rfl, rfl, rfl, rfl, rfl, rfl, rfl, rfl, rfl⟩
  · intro rawLevel hgt
    simp [doHandshakeRaw, decode_none_of_unrecognized rawLevel hgt]
  · intro s' hp
    exact ((machinery_pres E fuel).2.1 _ _ hp).2.2.2.2.2
  · intro lvl s' thrown h
    simp only [doHandshake] at h
    rcases hp : processPendingEvents E fuel
        (appendReadBuf { s with inHandshakeStack_ := true, waitForData_ := false } lvl data)
      with _ | s3
    · rw [hp] at h
      exact Option.noConfusion h
    · rw [hp] at h
      injection h with h
      obtain ⟨h1, _⟩ := Prod.mk.inj h
      obtain ⟨hb1, hb2, hb3⟩ := ((machinery_pres E fuel).2.1 _ _ hp).2.2.2.2.2
      subst h1
      refine ⟨?_, ?_, ?_⟩
      · show s3.initialConsumed_ ++ s3.initialReadBuf_ = _
        rw [hb1]
        cases lvl <;> simp [appendReadBuf]
      · show s3.handshakeConsumed_ ++ s3.handshakeReadBuf_ = _
        rw [hb2]
        cases lvl <;> simp [appendReadBuf]
      · show s3.appDataConsumed_ ++ s3.appDataReadBuf_ = _
        rw [hb3]
        cases lvl <;> simp [appendReadBuf]

/-- A fresh handshake with three Initial-level bytes already buffered. -/
def sFedSt : St :=
  { mkServerHandshake with initialReadBuf_ := [1, 2, 3] }

theorem fifo_level_buffering_witness :
    doHandshakeRaw sampleEngine 5 mkServerHandshake [1, 2, 3] 7 = none ∧
    ∃ s', processPendingEvents sampleEngine 5 sFedSt = some s' ∧
      s'.initialConsumed_ ++ s'.initialReadBuf_ = [1, 2, 3] := by
  have hp : processPendingEvents sampleEngine 5 sFedSt =
      some ((processPendingEvents sampleEngine 5 sFedSt).getD mkServerHandshake) := by
    simp [processPendingEvents, ppeLoop, startActions, processActions, processActionsCore,
      processCryptoActions, applyAction, feedEngineStep, acquireGuard, sampleEngine, sFedSt,
      mkServerHandshake]
  obtain ⟨c1, _, _⟩ := (fifo_level_buffering sampleEngine 5 sFedSt []).2.2.1 _ hp
  refine ⟨(fifo_level_buffering sampleEngine 5 mkServerHandshake [1, 2, 3]).2.1 7 (by decide),
    _, hp, ?_⟩
  rw [c1]
  simp [sFedSt, mkServerHandshake]

/-- C7: `cancel` only detaches the application callback and changes no other
state; it is idempotent; afterwards `isCancelled()` is true; after a
`cancel`, any number of further engine action-batch completions never fires
the application callback and the callback stays detached; and internal
processing still proceeds: installing ciphers on the cancelled state is the
same as installing them and then cancelling. -/
theorem cancel_detaches_callback_only (E : Engine) (s : St) :
    cancel s = { s with callback_ := false } ∧
    cancel (cancel s) = cancel s ∧
    isCancelled (cancel s) = true ∧
    (∀ fuel batches s', completeBatches E fuel (cancel s) batches = some s' →
      s'.callbackInvocations_ = s.callbackInvocations_ ∧ s'.callback_ = false) ∧
    (∀ kind secret, computeCiphers E (cancel s) kind secret =
      cancel (computeCiphers E s kind secret)) := by
  refine ⟨rfl, rfl, rfl, ?_, ?_⟩
  · intro fuel batches s' h
    have hp := completeBatches_pres E fuel batches (cancel s) s' h
    exact ⟨hp.2.2.2.1 rfl, hp.1⟩
  · intro kind secret
    cases kind <;> rfl

theorem cancel_detaches_callback_only_witness :
    (∃ s', completeBatches sampleEngine 3 (cancel { mkServerHandshake with callback_ := true })
        [[CryptoAction.deriveKey CipherKind.OneRttWrite 9]] = some s' ∧
      s'.callbackInvocations_ = 0 ∧ s'.callback_ = false) ∧
    computeCiphers sampleEngine (cancel { mkServerHandshake with callback_ := true })
        CipherKind.OneRttWrite 9 =
      cancel (computeCiphers sampleEngine { mkServerHandshake with callback_ := true }
        CipherKind.OneRttWrite 9) := by
  have hth := cancel_detaches_callback_only sampleEngine
    { mkServerHandshake with callback_ := true }
  have hc : completeBatches sampleEngine 3 (cancel { mkServerHandshake with callback_ := true })
      [[CryptoAction.deriveKey CipherKind.OneRttWrite 9]] =
      some ((completeBatches sampleEngine 3
        (cancel { mkServerHandshake with callback_ := true })
        [[CryptoAction.deriveKey CipherKind.OneRttWrite 9]]).getD mkServerHandshake) := by
    simp [completeBatches, cancel, processPendingEvents, ppeLoop, startActions, processActions,
      processActionsCore, processCryptoActions, applyAction, computeCiphers, feedEngineStep,
      acquireGuard, sampleEngine, mkServerHandshake]
  obtain ⟨h1, h2⟩ := hth.2.2.2.1 3 _ _ hc
  exact ⟨⟨_, hc, h1, h2⟩, hth.2.2.2.2 CipherKind.OneRttWrite 9⟩

/-- C10: `getClientTransportParams` unconditionally dereferences the stored
transport-parameters holder; in this total embedding the holder is an
`Option` and the empty (null-dereference) case is reachable — it is exactly
the fresh, before-any-`accept` state; after `accept(tp)` the holder is set
and stays set through the triggered processing, so the call is
well-defined. -/
theorem getClientTransportParams_requires_accept :
    getClientTransportParams mkServerHandshake = none ∧
    (∀ E fuel s tp s', accept E fuel s tp = some s' →
      (getClientTransportParams s').isSome = true) := by
  refine ⟨rfl, ?_⟩
  intro E fuel s tp s' h
  simp only [accept, processAccept] at h
  rcases hp : addProcessingActions E fuel
      { s with transportParams_ := some tp, inHandshakeStack_ := true,
               est := (E.acceptStep s.est).1 }
      (E.acceptStep s.est).2 with _ | s2
  · rw [hp] at h
    exact Option.noConfusion h
  · rw [hp] at h
    injection h with h
    subst h
    have htp := (addProcessingActions_pres E fuel _ _ _ hp).2.1
    show (getClientTransportParams { s2 with inHandshakeStack_ := false }).isSome = true
    simp only [getClientTransportParams]
    rw [show ({ s2 with inHandshakeStack_ := false } : St).transportParams_ =
      s2.transportParams_ from rfl, htp]
    rfl

theorem getClientTransportParams_requires_accept_witness :
    getClientTransportParams mkServerHandshake = none ∧
    (getClientTransportParams ((accept sampleEngine 3 mkServerHandshake 7).getD
      mkServerHandshake)).isSome = true := by
  refine ⟨getClientTransportParams_requires_accept.1, ?_⟩
  refine getClientTransportParams_requires_accept.2 sampleEngine 3 mkServerHandshake 7 _ ?_
  simp [accept, processAccept, addProcessingActions, startActions, processActions,
    processActionsCore, processCryptoActions, applyAction, computeCiphers, onHandshakeDone,
    processPendingEvents, ppeLoop, feedEngineStep, acquireGuard, sampleEngine, mkServerHandshake]

end QuicServerHandshake
